import Mathlib

/-! Verification development for the utServer signed-URL authentication protocol and
file-lifecycle state machine. The definitions below are a shallow embedding of the
TypeScript sources (src/lib/crypto.ts, src/lib/utils.ts, src/storage, and the Hono
route handlers); JavaScript platform builtins (URL, parseInt, Number.toString,
percent coding, HMAC) are modelled explicitly, with HMAC-SHA256 kept as an explicit
function argument since none of the verified properties depend on the digest
internals. -/

/-- Decimal digit character, modelling the digits emitted by Number.prototype.toString. -/
def digitChar (n : Nat) : Char := "0123456789".data.getD n '0'

/-- Numeric value of a decimal digit character. -/
def digitVal (c : Char) : Nat := c.toNat - 48

/-- Whether a character is an ASCII decimal digit. -/
def isDigitChar (c : Char) : Bool := decide (48 ≤ c.toNat) && decide (c.toNat ≤ 57)

/-- Decimal digits of a natural number, most significant first; fueled recursion. -/
def natToDigits : Nat → Nat → List Char
  | 0, _ => []
  | fuel + 1, n =>
    if n < 10 then [digitChar n] else natToDigits fuel (n / 10) ++ [digitChar (n % 10)]

/-- Model of Number.prototype.toString for a nonnegative integer. -/
def natToString (n : Nat) : String := ⟨natToDigits (n + 1) n⟩

/-- Model of Number.prototype.toString for a (possibly negative) integer. -/
def intToString (i : Int) : String :=
  if i < 0 then "-" ++ natToString i.natAbs else natToString i.natAbs

/-- Value of a list of decimal digit characters, most significant first. -/
def parseDigits (cs : List Char) : Nat := cs.foldl (fun a c => a * 10 + digitVal c) 0

/-- JavaScript whitespace characters skipped by parseInt. -/
def isJsWs (c : Char) : Bool := c == ' ' || c == '\t' || c == '\n' || c == '\r'

/-- Longest leading run of decimal digits, or none when there is no digit. -/
def parseDigitsPre (cs : List Char) : Option Nat :=
  let ds := cs.takeWhile isDigitChar
  if ds.isEmpty then none else some (parseDigits ds)

/-- Model of the JavaScript parseInt(s, 10): skip whitespace, optional sign, leading
digit run, ignoring any trailing junk; none models NaN. -/
def jsParseInt (s : String) : Option Int :=
  match s.data.dropWhile isJsWs with
  | [] => none
  | c :: rest =>
    if c = '-' then (parseDigitsPre rest).map (fun n => -(n : Int))
    else if c = '+' then (parseDigitsPre rest).map (fun n => (n : Int))
    else (parseDigitsPre (c :: rest)).map (fun n => (n : Int))

/-- Lowercase hex digit character, as produced by toHex in src/lib/crypto.ts. -/
def hexDigitChar (n : Nat) : Char := "0123456789abcdef".data.getD n '0'

/-- Hex expansion of a byte list, two lowercase digits per byte. -/
def toHexList : List Nat → List Char
  | [] => []
  | b :: rest => hexDigitChar (b / 16) :: hexDigitChar (b % 16) :: toHexList rest

/-- Model of toHex from src/lib/crypto.ts. -/
def toHex (bs : List Nat) : String := ⟨toHexList bs⟩

/-- Value of a hex digit character (either case), or none. -/
def hexVal (c : Char) : Option Nat :=
  if 48 ≤ c.toNat ∧ c.toNat ≤ 57 then some (c.toNat - 48)
  else if 97 ≤ c.toNat ∧ c.toNat ≤ 102 then some (c.toNat - 87)
  else if 65 ≤ c.toNat ∧ c.toNat ≤ 70 then some (c.toNat - 55)
  else none

/-- Model of Buffer.from(s, "hex"): consume hex pairs, stopping silently at the
first invalid pair or odd tail (Node never throws here). -/
def hexDecodeList : List Char → List Nat
  | c1 :: c2 :: rest =>
    match hexVal c1, hexVal c2 with
    | some hi, some lo => (16 * hi + lo) :: hexDecodeList rest
    | _, _ => []
  | _ => []

/-- Hex decoding of a string, modelling Buffer.from(s, "hex"). -/
def hexDecode (s : String) : List Nat := hexDecodeList s.data

/-- The segment of s after its last equals sign (s itself when none), modelling
the incoming.split pattern in verifyCdnSignedUrl. -/
def afterLastEq (s : String) : String :=
  ⟨(s.data.reverse.takeWhile (fun c => !(c == '='))).reverse⟩

/-- Whether s starts with p, modelling String.prototype.startsWith. -/
def strStartsWith (s p : String) : Bool := p.data.isPrefixOf s.data

/-- Drop the first n characters of s, modelling String.prototype.substring(n). -/
def strDrop (s : String) (n : Nat) : String := ⟨s.data.drop n⟩

/-- Structural model of a WHATWG URL as seen through the searchParams API: base part
(scheme, host, path) and the ordered query parameter list. Percent-coding
normalisation is not modelled; both the signing and the verifying side serialise
through the same functions, exactly as both sides go through the same URL class. -/
structure Url where
  base : String
  params : List (String × String)
deriving DecidableEq

/-- Serialisation of the query parameter list, as URL.prototype.toString renders it. -/
def serializeParams : List (String × String) → String
  | [] => ""
  | p :: ps => "?" ++ String.intercalate "&" ((p :: ps).map fun q => q.1 ++ "=" ++ q.2)

/-- Full serialisation of a URL (URL.prototype.toString). -/
def Url.toStr (u : Url) : String := u.base ++ serializeParams u.params

/-- Model of searchParams.get: value of the first parameter with the given name. -/
def Url.getParam (u : Url) (name : String) : Option String :=
  (u.params.find? (fun p => p.1 == name)).map (fun p => p.2)

/-- Model of searchParams.delete: removes every parameter with the given name. -/
def Url.deleteParam (u : Url) (name : String) : Url :=
  ⟨u.base, u.params.filter (fun p => !(p.1 == name))⟩

/-- Model of searchParams.append: adds a parameter at the end. -/
def Url.appendParam (u : Url) (name value : String) : Url :=
  ⟨u.base, u.params ++ [(name, value)]⟩

/-- Model of searchParams.set on the parameter list: replace the first occurrence in
place, removing later duplicates, or append when absent. -/
def setParamList : List (String × String) → String → String → List (String × String)
  | [], name, value => [(name, value)]
  | p :: rest, name, value =>
    if p.1 == name then (name, value) :: rest.filter (fun q => !(q.1 == name))
    else p :: setParamList rest name value

/-- Model of searchParams.set. -/
def Url.setParam (u : Url) (name value : String) : Url := ⟨u.base, setParamList u.params name value⟩

/-- Whether a character is an ASCII letter. -/
def isAlphaChar (c : Char) : Bool :=
  (decide (65 ≤ c.toNat) && decide (c.toNat ≤ 90)) || (decide (97 ≤ c.toNat) && decide (c.toNat ≤ 122))

/-- Characters allowed after the first character of a URL scheme. -/
def isSchemeChar (c : Char) : Bool := isAlphaChar c || isDigitChar c || c == '+' || c == '-' || c == '.'

/-- Scan for the colon ending a URL scheme; false when the string runs out or an
illegal character appears first. -/
def schemeScan : List Char → Bool
  | [] => false
  | c :: rest => if c == ':' then true else if isSchemeChar c then schemeScan rest else false

/-- Whether a string starts with a valid URL scheme (one letter, then scheme
characters, then a colon). The WHATWG URL constructor throws on any string
without one when no base is supplied. -/
def hasUrlScheme (s : String) : Bool :=
  match s.data with
  | [] => false
  | c :: rest => isAlphaChar c && schemeScan rest

/-- Split a character list at the first occurrence of sep. -/
def splitFirstChar (sep : Char) : List Char → List Char × Option (List Char)
  | [] => ([], none)
  | c :: rest =>
    if c == sep then ([], some rest)
    else
      let r := splitFirstChar sep rest
      (c :: r.1, r.2)

/-- Split a character list at every occurrence of sep (worker with accumulator). -/
def splitAllAux (sep : Char) : List Char → List Char → List (List Char)
  | [], acc => [acc.reverse]
  | c :: rest, acc =>
    if c == sep then acc.reverse :: splitAllAux sep rest [] else splitAllAux sep rest (c :: acc)

/-- Parse one name=value query pair. -/
def parseQueryPair (cs : List Char) : String × String :=
  let r := splitFirstChar '=' cs
  (⟨r.1⟩, ⟨r.2.getD []⟩)

/-- Parse a raw query string into its parameter list. -/
def parseQueryList (cs : List Char) : List (String × String) :=
  (splitAllAux '&' cs []).map parseQueryPair

/-- Model of the one-argument WHATWG URL constructor: requires a scheme, splits off
the query at the first question mark; none models the thrown TypeError. -/
def parseAbsoluteUrl (s : String) : Option Url :=
  if hasUrlScheme s then
    let r := splitFirstChar '?' s.data
    match r.2 with
    | none => some ⟨⟨r.1⟩, []⟩
    | some q => some ⟨⟨r.1⟩, parseQueryList q⟩
  else none

/-- Model of the percent decoding performed by decodeURIComponent (single byte
escapes; malformed escapes pass through). -/
def percentDecodeList : List Char → List Char
  | [] => []
  | '%' :: c1 :: c2 :: rest =>
    match hexVal c1, hexVal c2 with
    | some hi, some lo => Char.ofNat (16 * hi + lo) :: percentDecodeList rest
    | _, _ => '%' :: percentDecodeList (c1 :: c2 :: rest)
  | c :: rest => c :: percentDecodeList rest

/-- Model of the JavaScript decodeURIComponent builtin. -/
def decodeURIComponent (s : String) : String := ⟨percentDecodeList s.data⟩

/-- Characters that encodeURIComponent leaves unescaped. -/
def isUriUnreserved (c : Char) : Bool :=
  isAlphaChar c || isDigitChar c || c == '-' || c == '_' || c == '.' || c == '!' ||
    c == '~' || c == '*' || c == '\'' || c == '(' || c == ')'

/-- Uppercase hex digit character, as used by percent escapes. -/
def hexDigitUpper (n : Nat) : Char := "0123456789ABCDEF".data.getD n '0'

/-- Model of the percent encoding performed by encodeURIComponent (code points below
256; multi-byte UTF-8 expansion is not modelled). -/
def percentEncodeList : List Char → List Char
  | [] => []
  | c :: rest =>
    if isUriUnreserved c then c :: percentEncodeList rest
    else '%' :: hexDigitUpper (c.toNat / 16 % 16) :: hexDigitUpper (c.toNat % 16) :: percentEncodeList rest

/-- Model of the JavaScript encodeURIComponent builtin. -/
def encodeURIComponent (s : String) : String := ⟨percentEncodeList s.data⟩

/-- Error outcomes of the URL issuing routines: the three explicit throws of
LocalStorageAdapter.getSignedUrl and parseTimeToSeconds, plus the TypeError thrown
by the URL constructor. -/
inductive SignErr
  | invalidTimeNumber
  | invalidExpiresIn
  | expiresTooLong
  | invalidUrl
deriving DecidableEq

/-- Model of parseTimeToSeconds from src/lib/utils.ts restricted to its numeric
branch (every caller in scope passes a number): negative numbers throw, otherwise
the value is floored. -/
def parseTimeToSeconds (t : Int) : Except SignErr Nat :=
  if t < 0 then .error .invalidTimeNumber else .ok t.toNat

/-- Model of verifySdkSignature from src/lib/crypto.ts, the ingest-path verifier:
extract the signature parameter, rebuild the payload by deleting it, strip the
hmac-sha256= marker, hex-decode, and compare against the recomputed digest. The
hmac argument models crypto.subtle HMAC-SHA256 over (secret, payload). -/
def verifySdkSignature (hmac : String → String → List Nat) (u : Url) (secret : String) : Bool :=
  match u.getParam "signature" with
  | none => false
  | some rawSig =>
    if rawSig = "" then false
    else
      let payload := (u.deleteParam "signature").toStr
      let sig := if strStartsWith rawSig "hmac-sha256=" then strDrop rawSig 12 else rawSig
      hexDecode sig == hmac secret payload

/-- Model of verifyCdnSignedUrl from src/lib/utils.ts: require expires and
signature parameters, reject when parseInt of expires is NaN or when now is past
it, then rebuild the payload without the signature parameter, take the part of the
incoming signature after its last equals sign, hex-decode and compare lengths and
bytes against the recomputed digest. -/
def verifyCdnSignedUrl (hmac : String → String → List Nat) (u : Url) (secret : String)
    (now : Nat) : Bool :=
  match u.getParam "expires", u.getParam "signature" with
  | some expires, some signature =>
    if expires = "" ∨ signature = "" then false
    else
      match jsParseInt expires with
      | none => false
      | some expiresTs =>
        if (now : Int) > expiresTs then false
        else
          let payload := (u.deleteParam "signature").toStr
          let expected := hmac secret payload
          let incomingBuf := hexDecode (afterLastEq signature)
          if incomingBuf.length ≠ expected.length then false
          else incomingBuf == expected
  | _, _ => false

/-- Model of LocalStorageAdapter.getSignedUrl from src/storage: validate the TTL
(positive and at most 7 days) before any URL is built, construct baseUrl/f/fileKey,
append expires as now plus the TTL in milliseconds, append the extra data
parameters percent-encoded, sign the serialised URL, and append the signature
parameter last. -/
def getSignedUrl (hmac : String → String → List Nat) (baseUrl apiSecret fileKey : String)
    (expiresIn : Int) (data : List (String × String)) (now : Nat) : Except SignErr Url :=
  match parseTimeToSeconds expiresIn with
  | .error e => .error e
  | .ok ttl =>
    if ttl = 0 then .error .invalidExpiresIn
    else if ttl > 86400 * 7 then .error .expiresTooLong
    else
      match parseAbsoluteUrl (baseUrl ++ "/f/" ++ fileKey) with
      | none => .error .invalidUrl
      | some u0 =>
        let u1 := u0.appendParam "expires" (natToString (now + ttl * 1000))
        let u2 := data.foldl (fun u p => u.appendParam p.1 (encodeURIComponent p.2)) u1
        let payload := u2.toStr
        let signature := "hmac-sha256=" ++ toHex (hmac apiSecret payload)
        .ok (u2.appendParam "signature" signature)

/-- Model of generateSignedUploadUrl from src/lib/utils.ts: the URL constructor is
applied directly to the key entry of the parameter record (the source line is
new URL(params.key!)), then expires is set to now plus expiresIn seconds in
milliseconds, every declared parameter is set, the serialised URL is signed and
the signature parameter is set last. No TTL validation appears on this path. -/
def generateSignedUploadUrl (hmac : String → String → List Nat) (apiSecret : String)
    (ps : List (String × String)) (expiresIn : Int) (now : Int) : Except SignErr Url :=
  match parseAbsoluteUrl (((ps.find? (fun p => p.1 == "key")).map (fun p => p.2)).getD "undefined") with
  | none => .error .invalidUrl
  | some u0 =>
    let u1 := u0.setParam "expires" (intToString (now + expiresIn * 1000))
    let u2 := ps.foldl (fun u p => u.setParam p.1 p.2) u1
    let payload := u2.toStr
    let signature := "hmac-sha256=" ++ toHex (hmac apiSecret payload)
    .ok (u2.setParam "signature" signature)

/-- File status enumeration of prisma/schema.prisma. -/
inductive FileStatus
  | UPLOADING
  | UPLOADED
  | FAILED
  | DELETION_PENDING
deriving DecidableEq

/-- File ACL enumeration of prisma/schema.prisma. -/
inductive FileAcl
  | PRIVATE
  | PUBLIC_READ
deriving DecidableEq

/-- Content disposition enumeration of prisma/schema.prisma. -/
inductive ContentDisposition
  | INLINE
  | ATTACHMENT
deriving DecidableEq

/-- Runtime string of a ContentDisposition value: the Prisma client yields the
schema-level name, which the CDN handler interpolates into the response header. -/
def contentDispositionStr : ContentDisposition → String
  | .INLINE => "INLINE"
  | .ATTACHMENT => "ATTACHMENT"

/-- File record of the prisma File model, restricted to the fields the verified
operations read or write. The size field keeps the parseInt result, none standing
for NaN. -/
structure FileRecord where
  key : String
  name : String
  size : Option Int
  type : String
  status : FileStatus
  acl : FileAcl
  contentDisposition : ContentDisposition
  fileHash : Option String
  uploadedAt : Option Nat
  customId : Option String
deriving DecidableEq

/-- The durable record store, keyed by the unique file key. -/
def Store := List FileRecord
deriving DecidableEq

/-- Model of prisma.file.findUnique on the key field. -/
def findUnique (s : Store) (k : String) : Option FileRecord :=
  List.find? (fun r => r.key == k) s

/-- Model of prisma.file.upsert with an empty update clause: an existing record is
left as it is, otherwise the create record is inserted. -/
def upsertEmptyUpdate (s : Store) (k : String) (create : FileRecord) : Store :=
  match findUnique s k with
  | some _ => s
  | none => create :: s

/-- Model of prisma.file.update on a key: none models the thrown record-not-found
error; otherwise the matching record is rewritten by f. -/
def updateByKey (s : Store) (k : String) (f : FileRecord → FileRecord) : Option Store :=
  match findUnique s k with
  | none => none
  | some _ => some (List.map (fun r => if r.key == k then f r else r) s)

/-- Lookup of a query parameter from the request, modelling c.req.query(). -/
def lookupQ (q : List (String × String)) (name : String) : Option String :=
  (List.find? (fun p => p.1 == name) q).map (fun p => p.2)

/-- The record created by the pre-flight GET /:fileKey handler from the declared
metadata query parameters. -/
def preflightRecord (k : String) (q : List (String × String)) : FileRecord :=
  { key := k
  , name := decodeURIComponent ((lookupQ q "x-ut-file-name").getD "unknown-file")
  , size := jsParseInt ((lookupQ q "x-ut-file-size").getD "0")
  , type := decodeURIComponent ((lookupQ q "x-ut-file-type").getD "application/octet-stream")
  , status := .UPLOADING
  , acl := if lookupQ q "x-ut-acl" = some "public-read" then .PUBLIC_READ else .PRIVATE
  , contentDisposition :=
      if lookupQ q "x-ut-content-disposition" = some "attachment" then .ATTACHMENT else .INLINE
  , fileHash := none
  , uploadedAt := none
  , customId := none }

/-- The record created by the byte-bearing PUT /:fileKey handler; identical to the
pre-flight one except for the fallback file name. -/
def putRecord (k : String) (q : List (String × String)) : FileRecord :=
  { preflightRecord k q with
      name := decodeURIComponent ((lookupQ q "x-ut-file-name").getD "unknown") }

/-- Model of the GET /:fileKey pre-flight handler record registration. -/
def preflightRegister (s : Store) (k : String) (q : List (String × String)) : Store :=
  upsertEmptyUpdate s k (preflightRecord k q)

/-- Model of the upsert step of the PUT /:fileKey handler. -/
def putRegister (s : Store) (k : String) (q : List (String × String)) : Store :=
  upsertEmptyUpdate s k (putRecord k q)

/-- Model of the PUT /:fileKey handler: upsert the pending record, write the bytes
(the storage adapter returns their content hash), then update the record to
UPLOADED with the hash and the upload time. -/
def putUpload (s : Store) (k : String) (q : List (String × String)) (hash : String)
    (now : Nat) : Option Store :=
  updateByKey (putRegister s k q) k
    (fun r => { r with status := .UPLOADED, fileHash := some hash, uploadedAt := some now })

/-- Model of the POST /v6/completeMultipart handler: unconditional update of the
record to UPLOADED with an upload time; no file hash is written. -/
def completeMultipart (s : Store) (k : String) (now : Nat) : Option Store :=
  updateByKey s k (fun r => { r with status := .UPLOADED, uploadedAt := some now })

/-- Model of the POST /v6/failureCallback handler: unconditional update of the
record status to FAILED. -/
def failureCallback (s : Store) (k : String) : Option Store :=
  updateByKey s k (fun r => { r with status := .FAILED })

/-- File payload of a successful poll response. -/
structure PollFile where
  fileKey : String
  fileName : String
  fileSize : Option Int
  fileType : String
  fileUrl : String
  customId : Option String
deriving DecidableEq

/-- Model of the GET /v6/pollUpload/:fileKey handler: none models the 404; an
UPLOADED record yields status done with the file payload, every other status
yields status still working with a null file. -/
def pollUpload (s : Store) (baseUrl k : String) : Option (String × Option PollFile) :=
  match findUnique s k with
  | none => none
  | some f =>
    some (if f.status = FileStatus.UPLOADED
      then ("done", some ⟨f.key, f.name, f.size, f.type, baseUrl ++ "/f/" ++ f.key, f.customId⟩)
      else ("still working", none))

/-- Responses of the CDN read handler GET /f/:fileKey. -/
inductive CdnResponse
  | notFoundRecord
  | invalidSignature
  | notInStorage
  | ok (contentType : String) (contentDisposition : String) (cacheControl : String)
deriving DecidableEq

/-- Model of the GET /f/:fileKey handler: resolve the record first (404 when
absent), verify the signed URL only for a PRIVATE record (403 on failure), check
the backing bytes (404 when missing), then stream with the content type, the
content disposition header and a cache control of private, no-store for private
files or the long-lived immutable directive for public ones. The storage argument
models the exists check of the download object. -/
def cdnGet (hmac : String → String → List Nat) (secret : String) (storage : String → Bool)
    (s : Store) (u : Url) (k : String) (now : Nat) : CdnResponse :=
  match findUnique s k with
  | none => .notFoundRecord
  | some file =>
    if file.acl = FileAcl.PRIVATE ∧ verifyCdnSignedUrl hmac u secret now = false
    then .invalidSignature
    else if storage k = false then .notInStorage
    else
      .ok file.type
        (contentDispositionStr file.contentDisposition ++ "; filename=\"" ++ file.name ++ "\"")
        (if file.acl = FileAcl.PRIVATE then "private, no-store"
         else "public, max-age=31536000, immutable")

/-- A list all of whose elements satisfy p is its own longest p-run. -/
theorem takeWhile_eq_self_of_all {α} (p : α → Bool) (xs : List α) (h : xs.all p = true) :
    xs.takeWhile p = xs := by
  induction xs with
  | nil => rfl
  | cons c cs ih =>
    simp only [List.all_cons, Bool.and_eq_true] at h
    simp [List.takeWhile_cons, h.1, ih h.2]

/-- takeWhile walks through a fully satisfying first block. -/
theorem takeWhile_append_of_all {α} (p : α → Bool) (xs ys : List α) (h : xs.all p = true) :
    (xs ++ ys).takeWhile p = xs ++ ys.takeWhile p := by
  induction xs with
  | nil => rfl
  | cons c cs ih =>
    simp only [List.all_cons, Bool.and_eq_true] at h
    simp [List.takeWhile_cons, h.1, ih h.2]

/-- find? skips a block of non-matching elements. -/
theorem find?_append_of_all_neg {α} (q : α → Bool) (xs ys : List α)
    (h : xs.all (fun a => !(q a)) = true) :
    List.find? q (xs ++ ys) = List.find? q ys := by
  induction xs with
  | nil => rfl
  | cons c cs ih =>
    simp only [List.all_cons, Bool.and_eq_true, Bool.not_eq_true'] at h
    simp [List.find?_cons, h.1, ih (by simpa [List.all_eq_true, Bool.not_eq_true'] using h.2)]

/-- Filtering keeps a fully satisfying block and drops one failing tail element. -/
theorem filter_append_sandwich {α} (p : α → Bool) (xs : List α) (x : α)
    (hall : xs.all p = true) (hx : p x = false) :
    (xs ++ [x]).filter p = xs := by
  induction xs with
  | nil => simp [List.filter, hx]
  | cons c cs ih =>
    simp only [List.all_cons, Bool.and_eq_true] at hall
    simp [List.filter_cons, hall.1, ih hall.2]

/-- Digits of a natural number are never the empty list. -/
theorem natToDigits_ne_nil (fuel n : Nat) : natToDigits (fuel + 1) n ≠ [] := by
  unfold natToDigits
  split <;> simp

/-- Bounds extracted from the digit character test. -/
theorem toNat_of_isDigitChar {c : Char} (h : isDigitChar c = true) :
    48 ≤ c.toNat ∧ c.toNat ≤ 57 := by
  simpa [isDigitChar] using h

/-- A digit character differs from any character whose code point lies outside the
digit range. -/
theorem digit_ne_of_out {c : Char} (h : isDigitChar c = true) (d : Char)
    (hd : d.toNat < 48 ∨ 57 < d.toNat) : c ≠ d := by
  obtain ⟨h1, h2⟩ := toNat_of_isDigitChar h
  intro he
  subst he
  rcases hd with hd | hd <;> omega

/-- A digit character is not parseInt whitespace. -/
theorem digit_not_ws {c : Char} (h : isDigitChar c = true) : isJsWs c = false := by
  have hs := beq_eq_false_iff_ne.mpr (digit_ne_of_out h ' ' (by decide))
  have ht := beq_eq_false_iff_ne.mpr (digit_ne_of_out h '\t' (by decide))
  have hn := beq_eq_false_iff_ne.mpr (digit_ne_of_out h '\n' (by decide))
  have hr := beq_eq_false_iff_ne.mpr (digit_ne_of_out h '\r' (by decide))
  simp [isJsWs, hs, ht, hn, hr]

/-- Every character emitted by natToDigits is a decimal digit. -/
theorem natToDigits_all_digit : ∀ fuel n, (natToDigits fuel n).all isDigitChar = true := by
  intro fuel
  induction fuel with
  | zero => intro n; rfl
  | succ fuel ih =>
    intro n
    unfold natToDigits
    split
    · next hlt =>
      have : ∀ m, m < 10 → isDigitChar (digitChar m) = true := by decide
      simp [this n hlt]
    · have h10 : isDigitChar (digitChar (n % 10)) = true := by
        have : ∀ m, m < 10 → isDigitChar (digitChar m) = true := by decide
        exact this _ (Nat.mod_lt _ (by omega))
      simp [List.all_append, ih (n / 10), h10]

/-- parseDigits shifts one digit in from the right. -/
theorem parseDigits_append (xs : List Char) (c : Char) :
    parseDigits (xs ++ [c]) = parseDigits xs * 10 + digitVal c := by
  simp [parseDigits, List.foldl_append]

/-- parseDigits inverts natToDigits when the fuel dominates the number. -/
theorem parseDigits_natToDigits : ∀ fuel n, n < fuel → parseDigits (natToDigits fuel n) = n := by
  intro fuel
  induction fuel with
  | zero => intro n h; omega
  | succ fuel ih =>
    intro n h
    unfold natToDigits
    split
    · next hlt =>
      have hv : ∀ m, m < 10 → digitVal (digitChar m) = m := by decide
      simp [parseDigits, hv n hlt]
    · next hge =>
      have hn : 10 ≤ n := by omega
      have hdiv : n / 10 < fuel := by
        have := Nat.div_lt_self (by omega : 0 < n) (by omega : 1 < 10)
        omega
      have hv : digitVal (digitChar (n % 10)) = n % 10 := by
        have : ∀ m, m < 10 → digitVal (digitChar m) = m := by decide
        exact this _ (Nat.mod_lt _ (by omega))
      rw [parseDigits_append, ih _ hdiv, hv]
      omega

/-- parseInt inverts the decimal rendering of a natural number. -/
theorem jsParseInt_natToString (m : Nat) : jsParseInt (natToString m) = some (m : Int) := by
  have hne := natToDigits_ne_nil m m
  have hall := natToDigits_all_digit (m + 1) m
  have hparse := parseDigits_natToDigits (m + 1) m (by omega)
  unfold jsParseInt natToString
  cases hds : natToDigits (m + 1) m with
  | nil => exact absurd hds hne
  | cons c cs =>
    rw [hds] at hall hparse
    simp only [List.all_cons, Bool.and_eq_true] at hall
    have hdrop : (c :: cs).dropWhile isJsWs = c :: cs := by
      simp [List.dropWhile_cons, digit_not_ws hall.1]
    simp only [hdrop]
    rw [if_neg (digit_ne_of_out hall.1 '-' (by decide)),
        if_neg (digit_ne_of_out hall.1 '+' (by decide))]
    have htw : (c :: cs).takeWhile isDigitChar = c :: cs :=
      takeWhile_eq_self_of_all _ _ (by simp [List.all_cons, hall.1, hall.2])
    simp [parseDigitsPre, htw, hparse]

/-- Hex digit characters decode back to their value. -/
theorem hexVal_hexDigitChar : ∀ n, n < 16 → hexVal (hexDigitChar n) = some n := by decide

/-- No character produced by toHexList is an equals sign. -/
theorem toHexList_ne_eq (bs : List Nat) :
    (toHexList bs).all (fun c => !(c == '=')) = true := by
  induction bs with
  | nil => rfl
  | cons b rest ih =>
    have hch : ∀ n, (hexDigitChar n == '=') = false := by
      intro n
      by_cases h : n < 16
      · revert h; revert n; decide
      · have hlen : ("0123456789abcdef".data).length ≤ n := by
          simp only [not_lt] at h
          simpa using h
        simp [hexDigitChar, List.getD, List.getElem?_eq_none hlen]
    simp [toHexList, List.all_cons, hch, ih]

/-- Buffer hex decoding inverts toHex on genuine byte lists. -/
theorem hexDecodeList_toHexList (bs : List Nat) (h : bs.all (fun b => decide (b < 256)) = true) :
    hexDecodeList (toHexList bs) = bs := by
  induction bs with
  | nil => rfl
  | cons b rest ih =>
    simp only [List.all_cons, Bool.and_eq_true, decide_eq_true_eq] at h
    have hhi : b / 16 < 16 := by omega
    have hlo : b % 16 < 16 := Nat.mod_lt _ (by omega)
    simp only [toHexList, hexDecodeList, hexVal_hexDigitChar _ hhi, hexVal_hexDigitChar _ hlo]
    rw [ih (by simpa [List.all_eq_true] using h.2)]
    congr 1
    omega

/-- Splitting at the last equals sign strips exactly the hmac-sha256= marker. -/
theorem afterLastEq_marker (h : String) (hne : h.data.all (fun c => !(c == '=')) = true) :
    afterLastEq ("hmac-sha256=" ++ h) = h := by
  have hdata : ("hmac-sha256=" ++ h).data = "hmac-sha256=".data ++ h.data := rfl
  have hrev : ("hmac-sha256=" ++ h).data.reverse
      = h.data.reverse ++ ('=' :: "hmac-sha256".data.reverse) := by
    rw [hdata, List.reverse_append]
    rfl
  have hallrev : h.data.reverse.all (fun c => !(c == '=')) = true := by
    simpa [List.all_reverse] using hne
  unfold afterLastEq
  rw [hrev, takeWhile_append_of_all _ _ _ hallrev]
  have : List.takeWhile (fun c => !(c == '=')) ('=' :: "hmac-sha256".data.reverse) = [] := by
    simp [List.takeWhile_cons]
  rw [this, List.append_nil, List.reverse_reverse]


/-- A record update that keeps keys rewrites exactly the looked-up record. -/
theorem findUnique_map_update (s : Store) (k : String) (f : FileRecord → FileRecord)
    (r : FileRecord) (h : findUnique s k = some r) (hkey : ∀ x, (f x).key = x.key) :
    findUnique (List.map (fun x => if x.key == k then f x else x) s) k = some (f r) := by
  induction s with
  | nil => simp [findUnique] at h
  | cons a as ih =>
    simp only [findUnique, List.map_cons, List.find?_cons] at h ⊢
    cases ha : (a.key == k) with
    | true =>
      simp only [ha] at h
      have hfa : ((f a).key == k) = true := by rw [hkey a]; exact ha
      have hr : a = r := by simpa using h
      subst hr
      simp [ha, hfa]
    | false =>
      simp only [ha] at h
      simp only [ha, Bool.false_eq_true, if_false]
      exact ih h

/-- updateByKey on a present key yields the rewritten store and the rewritten record. -/
theorem updateByKey_found (s : Store) (k : String) (f : FileRecord → FileRecord)
    (r : FileRecord) (h : findUnique s k = some r) (hkey : ∀ x, (f x).key = x.key) :
    updateByKey s k f = some (List.map (fun x => if x.key == k then f x else x) s)
    ∧ findUnique (List.map (fun x => if x.key == k then f x else x) s) k = some (f r) := by
  refine ⟨?_, findUnique_map_update s k f r h hkey⟩
  unfold updateByKey
  rw [h]

/-- The empty-update upsert leaves the store alone when the key already resolves. -/
theorem upsert_of_found (s : Store) (k : String) (create : FileRecord)
    (h : (findUnique s k).isSome = true) : upsertEmptyUpdate s k create = s := by
  unfold upsertEmptyUpdate
  cases hf : findUnique s k with
  | none => rw [hf] at h; simp at h
  | some _ => rfl

/-- A freshly created pre-flight record carries its own key. -/
theorem preflightRecord_key (k : String) (q : List (String × String)) :
    (preflightRecord k q).key = k := rfl

/-- A freshly created byte-bearing ingest record carries its own key. -/
theorem putRecord_key (k : String) (q : List (String × String)) :
    (putRecord k q).key = k := rfl

/-- Registration of a record makes its key resolve afterwards. -/
theorem findUnique_after_upsert (s : Store) (k : String) (create : FileRecord)
    (hkey : create.key = k) : (findUnique (upsertEmptyUpdate s k create) k).isSome = true := by
  unfold upsertEmptyUpdate
  cases hf : findUnique s k with
  | none =>
    simp [findUnique, List.find?_cons, hkey]
  | some r =>
    simp [hf]

/-- Claim C7: registerPending, realised by the prisma upsert with an empty update
clause in both ingest handlers, is idempotent with first-registration-wins
semantics: when a record with the key exists, a second registration with any
(possibly different) declared metadata leaves the store, hence every field of the
existing record, unchanged; when no record exists, it creates one in status
Uploading built from the supplied declared metadata. -/
theorem C7_registerPending_idempotent (s : Store) (k : String)
    (q q2 : List (String × String)) :
    ((findUnique s k).isSome = true → preflightRegister s k q = s ∧ putRegister s k q = s)
    ∧ (findUnique s k = none →
        findUnique (preflightRegister s k q) k = some (preflightRecord k q)
        ∧ (preflightRecord k q).status = FileStatus.UPLOADING
        ∧ findUnique (putRegister s k q) k = some (putRecord k q)
        ∧ (putRecord k q).status = FileStatus.UPLOADING)
    ∧ putRegister (preflightRegister s k q) k q2 = preflightRegister s k q
    ∧ preflightRegister (putRegister s k q) k q2 = putRegister s k q := by
  refine ⟨?_, ?_, ?_, ?_⟩
  · intro h
    exact ⟨upsert_of_found s k _ h, upsert_of_found s k _ h⟩
  · intro h
    unfold preflightRegister putRegister upsertEmptyUpdate
    rw [h]
    refine ⟨?_, rfl, ?_, rfl⟩
    · simp [findUnique, List.find?_cons, preflightRecord_key]
    · simp [findUnique, List.find?_cons, putRecord_key]
  · exact upsert_of_found _ k _ (findUnique_after_upsert s k _ (preflightRecord_key k q))
  · exact upsert_of_found _ k _ (findUnique_after_upsert s k _ (putRecord_key k q))

/-- Witness for C7 at a concrete store and concrete declared metadata. -/
theorem C7_registerPending_idempotent_witness :
    putRegister (preflightRegister [] "w7" [("x-ut-file-name", "n.png")]) "w7"
        [("x-ut-file-name", "other")]
      = preflightRegister [] "w7" [("x-ut-file-name", "n.png")]
    ∧ findUnique (preflightRegister [] "w7" [("x-ut-file-name", "n.png")]) "w7"
      = some (preflightRecord "w7" [("x-ut-file-name", "n.png")]) := by
  constructor
  · exact (C7_registerPending_idempotent [] "w7" [("x-ut-file-name", "n.png")]
      [("x-ut-file-name", "other")]).2.2.1
  · exact ((C7_registerPending_idempotent [] "w7" [("x-ut-file-name", "n.png")]
      [("x-ut-file-name", "other")]).2.1 rfl).1

/-- Claim C9: for every existing record whose status is not Uploaded, including a
Failed one, the poll endpoint answers status still working with a null file, so a
failed upload is reported exactly like an in-progress one. -/
theorem C9_poll_reports_still_working (s : Store) (b k : String) (f : FileRecord)
    (h : findUnique s k = some f) (hs : f.status ≠ FileStatus.UPLOADED) :
    pollUpload s b k = some ("still working", none) := by
  unfold pollUpload
  rw [h]
  simp [hs]

/-- Concrete record in status FAILED. -/
def recFailed : FileRecord :=
  { key := "k9", name := "f.bin", size := some 4, type := "application/octet-stream"
  , status := .FAILED, acl := .PRIVATE, contentDisposition := .INLINE
  , fileHash := none, uploadedAt := none, customId := none }

/-- Witness for C9: polling a FAILED record reports still working. -/
theorem C9_poll_reports_still_working_witness :
    pollUpload [recFailed] "http://h" "k9" = some ("still working", none) :=
  C9_poll_reports_still_working [recFailed] "http://h" "k9" recFailed rfl (by decide)

/-- Concrete record in the terminal status UPLOADED, with hash and timestamp. -/
def recUploaded : FileRecord :=
  { key := "k1", name := "a.png", size := some 3, type := "image/png"
  , status := .UPLOADED, acl := .PRIVATE, contentDisposition := .INLINE
  , fileHash := some "deadbeef", uploadedAt := some 111, customId := none }

/-- Counterexample to claim C2: a failure callback on an already-Uploaded record is
not a no-op; it rewrites the record, moving status from UPLOADED to FAILED. -/
theorem C2_counterexample :
    failureCallback [recUploaded] "k1"
      = some [{ recUploaded with status := FileStatus.FAILED }]
    ∧ ({ recUploaded with status := FileStatus.FAILED }) ≠ recUploaded := by
  exact ⟨rfl, by decide⟩

/-- Claim C2 as amended: terminal statuses are not write-protected. A failure
callback on any existing record, an already-Uploaded one included, overwrites
status to Failed (keeping fileHash and uploadedAt as they were), and a PUT upload
completion on any existing record, an already-Failed one included, overwrites
status to Uploaded and rewrites fileHash and uploadedAt. -/
theorem C2_terminal_status_overwritten (s : Store) (k : String) (r : FileRecord)
    (q : List (String × String)) (hash : String) (now : Nat)
    (h : findUnique s k = some r) :
    (∃ s2, failureCallback s k = some s2
        ∧ findUnique s2 k = some { r with status := FileStatus.FAILED })
    ∧ (∃ s3, putUpload s k q hash now = some s3
        ∧ findUnique s3 k = some { r with status := FileStatus.UPLOADED, fileHash := some hash, uploadedAt := some now }) := by
  constructor
  · obtain ⟨h1, h2⟩ := updateByKey_found s k
      (fun x => { x with status := FileStatus.FAILED }) r h (fun x => rfl)
    exact ⟨_, h1, h2⟩
  · have hreg : putRegister s k q = s :=
      upsert_of_found s k _ (by rw [h]; rfl)
    obtain ⟨h1, h2⟩ := updateByKey_found s k
      (fun x => { x with status := FileStatus.UPLOADED, fileHash := some hash, uploadedAt := some now })
      r h (fun x => rfl)
    refine ⟨_, ?_, h2⟩
    unfold putUpload
    rw [hreg]
    exact h1

/-- Witness for C2 on the concrete Uploaded record. -/
theorem C2_terminal_status_overwritten_witness :
    (∃ s2, failureCallback [recUploaded] "k1" = some s2
        ∧ findUnique s2 "k1" = some { recUploaded with status := FileStatus.FAILED })
    ∧ (∃ s3, putUpload [recUploaded] "k1" [] "h2" 222 = some s3
        ∧ findUnique s3 "k1" = some { recUploaded with status := FileStatus.UPLOADED, fileHash := some "h2", uploadedAt := some 222 }) :=
  C2_terminal_status_overwritten [recUploaded] "k1" recUploaded [] "h2" 222 rfl

/-- Concrete record in status UPLOADING with no hash. -/
def recUploading : FileRecord :=
  { key := "k2", name := "b.bin", size := some 7, type := "application/octet-stream"
  , status := .UPLOADING, acl := .PRIVATE, contentDisposition := .INLINE
  , fileHash := none, uploadedAt := none, customId := none }

/-- Counterexample to claim C3: completeMultipart moves a hashless record to
status Uploaded without recording any hash, so fileHash present iff Uploaded
fails. -/
theorem C3_counterexample :
    completeMultipart [recUploading] "k2" 222
      = some [{ recUploading with status := FileStatus.UPLOADED, uploadedAt := some 222 }]
    ∧ ({ recUploading with status := FileStatus.UPLOADED, uploadedAt := some 222 }).status = FileStatus.UPLOADED
    ∧ ({ recUploading with status := FileStatus.UPLOADED, uploadedAt := some 222 }).fileHash = none :=
  ⟨rfl, rfl, rfl⟩

/-- Claim C3 as amended: the byte-bearing PUT path does couple the hash with the
Uploaded transition, but completeMultipart moves a record to Uploaded while
leaving fileHash exactly as it was (absent for an Uploading record), and
failureCallback moves a record to Failed while leaving an existing fileHash in
place, so fileHash is set iff status is Uploaded does not hold. -/
theorem C3_hash_not_tied_to_uploaded (s : Store) (k : String) (r : FileRecord) (now : Nat)
    (h : findUnique s k = some r) :
    (∃ s2, completeMultipart s k now = some s2
        ∧ findUnique s2 k = some { r with status := FileStatus.UPLOADED, uploadedAt := some now }
        ∧ ({ r with status := FileStatus.UPLOADED, uploadedAt := some now }).fileHash = r.fileHash)
    ∧ (∃ s3, failureCallback s k = some s3
        ∧ findUnique s3 k = some { r with status := FileStatus.FAILED }
        ∧ ({ r with status := FileStatus.FAILED }).fileHash = r.fileHash) := by
  constructor
  · obtain ⟨h1, h2⟩ := updateByKey_found s k
      (fun x => { x with status := FileStatus.UPLOADED, uploadedAt := some now }) r h
      (fun x => rfl)
    exact ⟨_, h1, h2, rfl⟩
  · obtain ⟨h1, h2⟩ := updateByKey_found s k
      (fun x => { x with status := FileStatus.FAILED }) r h (fun x => rfl)
    exact ⟨_, h1, h2, rfl⟩

/-- Witness for C3 on the concrete Uploading record. -/
theorem C3_hash_not_tied_to_uploaded_witness :
    (∃ s2, completeMultipart [recUploading] "k2" 5 = some s2
        ∧ findUnique s2 "k2"
            = some { recUploading with status := FileStatus.UPLOADED, uploadedAt := some 5 }
        ∧ ({ recUploading with status := FileStatus.UPLOADED, uploadedAt := some 5 }).fileHash = recUploading.fileHash)
    ∧ (∃ s3, failureCallback [recUploading] "k2" = some s3
        ∧ findUnique s3 "k2" = some { recUploading with status := FileStatus.FAILED }
        ∧ ({ recUploading with status := FileStatus.FAILED }).fileHash = recUploading.fileHash) :=
  C3_hash_not_tied_to_uploaded [recUploading] "k2" recUploading 5 rfl

/-- Claim C8: on the CDN read of an existing record, a Private file without a
valid unexpired signature yields 403; with a valid signature and present bytes the
response streams with Cache-Control exactly private, no-store; a PublicRead file
needs no signature and gets the long-lived immutable directive. -/
theorem C8_cdn_acl_gating (hmac : String → String → List Nat) (secret : String)
    (storage : String → Bool) (s : Store) (u : Url) (k : String) (now : Nat)
    (file : FileRecord) (h : findUnique s k = some file) :
    (file.acl = FileAcl.PRIVATE → verifyCdnSignedUrl hmac u secret now = false →
      cdnGet hmac secret storage s u k now = CdnResponse.invalidSignature)
    ∧ (file.acl = FileAcl.PRIVATE → verifyCdnSignedUrl hmac u secret now = true →
        storage k = true →
        cdnGet hmac secret storage s u k now
          = CdnResponse.ok file.type
              (contentDispositionStr file.contentDisposition ++ "; filename=\"" ++ file.name ++ "\"")
              "private, no-store")
    ∧ (file.acl = FileAcl.PUBLIC_READ → storage k = true →
        cdnGet hmac secret storage s u k now
          = CdnResponse.ok file.type
              (contentDispositionStr file.contentDisposition ++ "; filename=\"" ++ file.name ++ "\"")
              "public, max-age=31536000, immutable") := by
  refine ⟨?_, ?_, ?_⟩
  · intro hacl hv
    unfold cdnGet
    simp only [h]
    rw [if_pos ⟨hacl, hv⟩]
  · intro hacl hv hst
    unfold cdnGet
    simp only [h]
    rw [if_neg (by simp [hv]), if_neg (by simp [hst]), if_pos hacl]
  · intro hacl hst
    have hne : ¬ file.acl = FileAcl.PRIVATE := by rw [hacl]; decide
    unfold cdnGet
    simp only [h]
    rw [if_neg (by simp [hne]), if_neg (by simp [hst]), if_neg hne]

/-- Concrete single-byte digest function used to instantiate the hmac argument in
witnesses; the verified statements hold for every digest function. -/
def stubHmac : String → String → List Nat := fun _ _ => [171]

/-- Concrete record with Private ACL. -/
def recPrivate : FileRecord :=
  { key := "k8", name := "p.png", size := some 2, type := "image/png"
  , status := .UPLOADED, acl := .PRIVATE, contentDisposition := .INLINE
  , fileHash := some "aa", uploadedAt := some 1, customId := none }

/-- Concrete CDN URL carrying an unexpired, correctly signed query. -/
def signedCdnUrl : Url :=
  ⟨"http://h/f/k8", [("expires", "60000"), ("signature", "hmac-sha256=ab")]⟩

/-- Witness for C8 on concrete signed and unsigned reads. -/
theorem C8_cdn_acl_gating_witness :
    cdnGet stubHmac "sk" (fun _ => true) [recPrivate] signedCdnUrl "k8" 1000
      = CdnResponse.ok "image/png" "INLINE; filename=\"p.png\"" "private, no-store"
    ∧ cdnGet stubHmac "sk" (fun _ => true) [recPrivate] ⟨"http://h/f/k8", []⟩ "k8" 1000
      = CdnResponse.invalidSignature := by
  constructor
  · exact (C8_cdn_acl_gating stubHmac "sk" (fun _ => true) [recPrivate] signedCdnUrl "k8" 1000
      recPrivate rfl).2.1 rfl (by decide) rfl
  · exact (C8_cdn_acl_gating stubHmac "sk" (fun _ => true) [recPrivate]
      ⟨"http://h/f/k8", []⟩ "k8" 1000 recPrivate rfl).1 rfl (by decide)

/-- Claim C10: the CDN read checks record existence before any signature check:
a missing key yields 404 whatever the query carries, and the invalid-signature
outcome can only arise for an existing record with Private ACL whose signature
check failed. -/
theorem C10_missing_record_shortcircuits_auth (hmac : String → String → List Nat)
    (secret : String) (storage : String → Bool) (s : Store) (u : Url) (k : String)
    (now : Nat) :
    (findUnique s k = none → cdnGet hmac secret storage s u k now = CdnResponse.notFoundRecord)
    ∧ (cdnGet hmac secret storage s u k now = CdnResponse.invalidSignature →
        ∃ file, findUnique s k = some file ∧ file.acl = FileAcl.PRIVATE
          ∧ verifyCdnSignedUrl hmac u secret now = false) := by
  constructor
  · intro h
    unfold cdnGet
    rw [h]
  · intro h
    unfold cdnGet at h
    cases hf : findUnique s k with
    | none =>
      simp only [hf] at h
      exact absurd h (by decide)
    | some file =>
      simp only [hf] at h
      by_cases hc : file.acl = FileAcl.PRIVATE ∧ verifyCdnSignedUrl hmac u secret now = false
      · exact ⟨file, rfl, hc.1, hc.2⟩
      · rw [if_neg hc] at h
        by_cases hst : storage k = false
        · rw [if_pos hst] at h
          exact absurd h (by decide)
        · rw [if_neg hst] at h
          simp at h

/-- Witness for C10: unauthenticated read of an absent key yields the 404. -/
theorem C10_missing_record_shortcircuits_auth_witness :
    cdnGet stubHmac "sk" (fun _ => true) [] ⟨"http://h/f/nokey", []⟩ "nokey" 5
      = CdnResponse.notFoundRecord :=
  (C10_missing_record_shortcircuits_auth stubHmac "sk" (fun _ => true) []
    ⟨"http://h/f/nokey", []⟩ "nokey" 5).1 rfl

/-- Concrete ingest URL whose expires parameter (0) lies far in the past and whose
signature is the correct digest of the payload under the stub digest function. -/
def expiredIngestUrl : Url :=
  ⟨"https://ingest.example/k1", [("expires", "0"), ("signature", "hmac-sha256=ab")]⟩

/-- Claim C1 fails on the code: verifySdkSignature, the ingest-path verifier,
accepts a correctly signed URL whose expires parameter lies strictly in the past
(it never reads expires at all), while verifyCdnSignedUrl rejects the very same
URL at the same verification time. -/
theorem C1_ingest_verifier_ignores_expiry :
    verifySdkSignature stubHmac expiredIngestUrl "sk_secret" = true
    ∧ jsParseInt "0" = some 0
    ∧ ((0 : Int) < 1760000000000)
    ∧ verifyCdnSignedUrl stubHmac expiredIngestUrl "sk_secret" 1760000000000 = false :=
  ⟨by decide, by decide, by decide, by decide⟩

/-- Characters of the nanoid default alphabet (letters, digits, underscore,
hyphen), from which generateFileKey draws all 24 characters of a file key. -/
def isNanoidChar (c : Char) : Bool := isAlphaChar c || isDigitChar c || c == '_' || c == '-'

/-- Scheme scanning fails on any character list without a colon. -/
theorem schemeScan_no_colon (cs : List Char) (h : cs.all (fun c => !(c == ':')) = true) :
    schemeScan cs = false := by
  induction cs with
  | nil => rfl
  | cons c rest ih =>
    simp only [List.all_cons, Bool.and_eq_true] at h
    unfold schemeScan
    have hc : ¬ (c == ':') = true := by
      intro hcc
      rw [hcc] at h
      exact absurd h.1 (by decide)
    rw [if_neg hc]
    split
    · exact ih h.2
    · rfl

/-- Keys over the nanoid alphabet contain no colon. -/
theorem nanoid_has_no_colon (key : String) (h : key.data.all isNanoidChar = true) :
    key.data.all (fun c => !(c == ':')) = true := by
  rw [List.all_eq_true] at h ⊢
  intro c hc
  have hn := h c hc
  cases hcc : (c == ':') with
  | false => rfl
  | true =>
    have hceq : c = ':' := by simpa using hcc
    rw [hceq] at hn
    exact absurd hn (by decide)

/-- A string without a colon has no URL scheme. -/
theorem hasUrlScheme_no_colon (key : String)
    (h : key.data.all (fun c => !(c == ':')) = true) : hasUrlScheme key = false := by
  unfold hasUrlScheme
  cases hd : key.data with
  | nil => rfl
  | cons c rest =>
    rw [hd] at h
    simp only [List.all_cons, Bool.and_eq_true] at h
    show (isAlphaChar c && schemeScan rest) = false
    rw [schemeScan_no_colon rest h.2, Bool.and_false]

/-- The upload-URL builder applies the URL constructor to the raw key, so it
throws the Invalid URL TypeError for every key drawn from the nanoid alphabet,
whatever the metadata, TTL and clock. -/
theorem generateSignedUploadUrl_fails_on_random_keys
    (hmac : String → String → List Nat) (secret key : String)
    (rest : List (String × String)) (ttl now : Int)
    (h : key.data.all isNanoidChar = true) :
    generateSignedUploadUrl hmac secret (("key", key) :: rest) ttl now
      = Except.error SignErr.invalidUrl := by
  unfold generateSignedUploadUrl
  have hfind : List.find? (fun p => p.1 == "key") (("key", key) :: rest)
      = some ("key", key) := by
    simp [List.find?_cons]
  rw [hfind]
  have hval : (Option.map (fun p => p.2) (some ("key", key))).getD "undefined" = key := rfl
  rw [hval]
  unfold parseAbsoluteUrl
  rw [hasUrlScheme_no_colon key (nanoid_has_no_colon key h)]
  simp

/-- Claim C4 fails on the code: for concrete randomly-generated-shape keys the
upload-session URL construction errors out with the URL-constructor failure
instead of returning a signed byte-ingest URL, because the source builds
new URL(params.key) from the raw key rather than from the base URL plus key. -/
theorem C4_upload_url_construction_always_throws :
    generateSignedUploadUrl stubHmac "sk"
        [("key", "V1StGXR8Z5jdHi6BmyTxyzAB"), ("x-ut-file-name", "a.png"),
          ("x-ut-file-size", "3"), ("x-ut-file-type", "image/png"),
          ("x-ut-acl", "private"), ("x-ut-content-disposition", "inline")] 3600 0
      = Except.error SignErr.invalidUrl
    ∧ generateSignedUploadUrl stubHmac "sk"
        [("key", "aQzWsXeDcRfVtGbYhNuJmIkO"), ("x-ut-file-name", "b.txt"),
          ("x-ut-file-size", "1"), ("x-ut-file-type", "text/plain"),
          ("x-ut-acl", "public-read"), ("x-ut-content-disposition", "attachment")] 60 99
      = Except.error SignErr.invalidUrl :=
  ⟨generateSignedUploadUrl_fails_on_random_keys stubHmac "sk" "V1StGXR8Z5jdHi6BmyTxyzAB"
      _ 3600 0 (by decide),
    generateSignedUploadUrl_fails_on_random_keys stubHmac "sk" "aQzWsXeDcRfVtGbYhNuJmIkO"
      _ 60 99 (by decide)⟩

/-- Whether an Except result is a success. -/
def exceptIsOk : Except SignErr Url → Bool
  | .ok _ => true
  | .error _ => false

/-- Counterexample to claim C5: an upload session issued with the out-of-range
TTL of minus five seconds succeeds (here with a key that happens to parse as a
URL), so out-of-range TTLs are not rejected with an invalid-expiry error on the
upload path. -/
theorem C5_counterexample :
    generateSignedUploadUrl stubHmac "sk" [("key", "https://h/k")] (-5) 1000
      = Except.ok ⟨"https://h/k",
          [("expires", "-4000"), ("key", "https://h/k"), ("signature", "hmac-sha256=ab")]⟩ := rfl

/-- Claim C5 as amended: the TTL range check lives on the download-URL path, not
the upload path. The storage getSignedUrl rejects a negative, zero, or
beyond-seven-days TTL with the corresponding invalid-expiry error before any URL
is constructed and raises none of those errors for an in-range TTL, while
generateSignedUploadUrl, the upload-session builder, applies no TTL validation:
its success or failure is entirely independent of the TTL value. -/
theorem C5_ttl_validated_only_on_download_path (hmac : String → String → List Nat)
    (b sec k : String) (e : Int) (data : List (String × String)) (now : Nat)
    (ps : List (String × String)) (ni : Int) :
    (e < 0 → getSignedUrl hmac b sec k e data now = Except.error SignErr.invalidTimeNumber)
    ∧ (e = 0 → getSignedUrl hmac b sec k e data now = Except.error SignErr.invalidExpiresIn)
    ∧ (604800 < e → getSignedUrl hmac b sec k e data now = Except.error SignErr.expiresTooLong)
    ∧ (0 < e → e ≤ 604800 →
        getSignedUrl hmac b sec k e data now ≠ Except.error SignErr.invalidTimeNumber
        ∧ getSignedUrl hmac b sec k e data now ≠ Except.error SignErr.invalidExpiresIn
        ∧ getSignedUrl hmac b sec k e data now ≠ Except.error SignErr.expiresTooLong)
    ∧ (∀ i1 i2 : Int, exceptIsOk (generateSignedUploadUrl hmac sec ps i1 ni)
        = exceptIsOk (generateSignedUploadUrl hmac sec ps i2 ni)) := by
  refine ⟨?_, ?_, ?_, ?_, ?_⟩
  · intro he
    unfold getSignedUrl parseTimeToSeconds
    rw [if_pos he]
  · intro he
    subst he
    unfold getSignedUrl parseTimeToSeconds
    rfl
  · intro he
    unfold getSignedUrl parseTimeToSeconds
    rw [if_neg (by omega)]
    have h0 : ¬ (Int.toNat e = 0) := by omega
    have h7 : Int.toNat e > 86400 * 7 := by omega
    simp only [if_neg h0, if_pos h7]
  · intro h1 h2
    unfold getSignedUrl parseTimeToSeconds
    rw [if_neg (by omega)]
    have h0 : ¬ (Int.toNat e = 0) := by omega
    have h7 : ¬ (Int.toNat e > 86400 * 7) := by omega
    simp only [if_neg h0, if_neg h7]
    cases hp : parseAbsoluteUrl (b ++ "/f/" ++ k) with
    | none => exact ⟨by simp, by simp, by simp⟩
    | some u0 => exact ⟨by simp, by simp, by simp⟩
  · intro i1 i2
    unfold generateSignedUploadUrl
    cases hp : parseAbsoluteUrl
        (((List.find? (fun p => p.1 == "key") ps).map (fun p => p.2)).getD "undefined") with
    | none => rfl
    | some u0 => rfl

/-- Witness for C5 at concrete TTL values on both paths. -/
theorem C5_ttl_validated_only_on_download_path_witness :
    getSignedUrl stubHmac "http://h" "sk" "k" (-5) [] 0
        = Except.error SignErr.invalidTimeNumber
    ∧ getSignedUrl stubHmac "http://h" "sk" "k" 3600 [] 0
        ≠ Except.error SignErr.invalidExpiresIn
    ∧ exceptIsOk (generateSignedUploadUrl stubHmac "sk" [("key", "anyKey")] (-99999) 7)
        = exceptIsOk (generateSignedUploadUrl stubHmac "sk" [("key", "anyKey")] 3600 7) := by
  refine ⟨?_, ?_, ?_⟩
  · exact (C5_ttl_validated_only_on_download_path stubHmac "http://h" "sk" "k" (-5) [] 0
      [("key", "anyKey")] 7).1 (by decide)
  · exact ((C5_ttl_validated_only_on_download_path stubHmac "http://h" "sk" "k" 3600 [] 0
      [("key", "anyKey")] 7).2.2.2.1 (by decide) (by decide)).2.1
  · exact (C5_ttl_validated_only_on_download_path stubHmac "http://h" "sk" "k" 3600 [] 0
      [("key", "anyKey")] 7).2.2.2.2 (-99999) 3600

/-- Folding append over the data parameters appends their encoded images. -/
theorem foldl_appendParam (data : List (String × String)) (u : Url) :
    data.foldl (fun v p => v.appendParam p.1 (encodeURIComponent p.2)) u
      = ⟨u.base, u.params ++ data.map (fun p => (p.1, encodeURIComponent p.2))⟩ := by
  induction data generalizing u with
  | nil => simp
  | cons p ps ih =>
    rw [List.foldl_cons, ih]
    simp [Url.appendParam]

/-- Decimal renderings are never empty. -/
theorem natToString_ne_empty (m : Nat) : natToString m ≠ "" := by
  intro h
  exact natToDigits_ne_nil m m (congrArg String.data h)

/-- A string carrying the signature marker is never empty. -/
theorem marker_append_ne_empty (h : String) : "hmac-sha256=" ++ h ≠ "" := by
  intro he
  have hd : ("hmac-sha256=".data ++ h.data : List Char) = [] := congrArg String.data he
  simp at hd

/-- getParam skips a block of parameters with other names. -/
theorem getParam_append_skip (b : String) (l1 l2 : List (String × String)) (n : String)
    (h : l1.all (fun p => !(p.1 == n)) = true) :
    Url.getParam ⟨b, l1 ++ l2⟩ n = Url.getParam ⟨b, l2⟩ n := by
  simp only [Url.getParam]
  rw [find?_append_of_all_neg _ l1 l2 h]

/-- Claim C6: sign and verify round-trip. A URL produced by the storage
getSignedUrl routine (which appends expires, then the extra data parameters, then
the signature parameter last) verifies successfully under verifyCdnSignedUrl with
the same secret at any time up to the embedded expiry, for every key, secret,
in-range TTL and extra data not named signature, and every digest function with
byte-valued output. -/
theorem C6_sign_verify_roundtrip (hmac : String → String → List Nat)
    (baseUrl apiSecret fileKey : String) (ttl : Nat) (data : List (String × String))
    (now t : Nat) (b : String) (u : Url)
    (hbytes : ∀ s p, (hmac s p).all (fun x => decide (x < 256)) = true)
    (hparse : parseAbsoluteUrl (baseUrl ++ "/f/" ++ fileKey) = some ⟨b, []⟩)
    (hdata : data.all (fun p => !(p.1 == "signature")) = true)
    (hok : getSignedUrl hmac baseUrl apiSecret fileKey (ttl : Int) data now = Except.ok u)
    (ht : t ≤ now + ttl * 1000) :
    verifyCdnSignedUrl hmac u apiSecret t = true := by
  have hnn : ¬ ((ttl : Int) < 0) := by omega
  have htoNat : ((ttl : Int)).toNat = ttl := by omega
  unfold getSignedUrl parseTimeToSeconds at hok
  simp only [if_neg hnn, htoNat] at hok
  by_cases h0 : ttl = 0
  · rw [if_pos h0] at hok
    exact absurd hok (by simp)
  · rw [if_neg h0] at hok
    by_cases h7 : ttl > 86400 * 7
    · rw [if_pos h7] at hok
      exact absurd hok (by simp)
    · rw [if_neg h7] at hok
      simp only [hparse] at hok
      rw [foldl_appendParam data (Url.appendParam ⟨b, []⟩ "expires"
        (natToString (now + ttl * 1000)))] at hok
      simp only [Url.appendParam, List.nil_append, List.singleton_append, List.cons_append,
        Except.ok.injEq] at hok
      subst hok
      set e := natToString (now + ttl * 1000) with he
      set data2 := data.map (fun p => (p.1, encodeURIComponent p.2)) with hdata2
      have hdata' : data2.all (fun p => !(p.1 == "signature")) = true := by
        rw [hdata2, List.all_map]
        simpa [Function.comp] using hdata
      set payload := Url.toStr ⟨b, ("expires", e) :: data2⟩ with hpayload
      set sig := "hmac-sha256=" ++ toHex (hmac apiSecret payload) with hsig
      have hget_exp : Url.getParam ⟨b, ("expires", e) :: (data2 ++ [("signature", sig)])⟩
          "expires" = some e := by
        simp [Url.getParam, List.find?_cons]
      have hget_sig : Url.getParam ⟨b, ("expires", e) :: (data2 ++ [("signature", sig)])⟩
          "signature" = some sig := by
        have hcons : Url.getParam ⟨b, ("expires", e) :: (data2 ++ [("signature", sig)])⟩
            "signature" = Url.getParam ⟨b, data2 ++ [("signature", sig)]⟩ "signature" := by
          simp [Url.getParam, List.find?_cons]
        rw [hcons, getParam_append_skip b data2 [("signature", sig)] "signature" hdata']
        simp [Url.getParam, List.find?_cons]
      have hdel : Url.deleteParam ⟨b, ("expires", e) :: (data2 ++ [("signature", sig)])⟩
          "signature" = ⟨b, ("expires", e) :: data2⟩ := by
        simp only [Url.deleteParam, List.filter_cons]
        rw [filter_append_sandwich _ data2 ("signature", sig) hdata' (by simp)]
        simp
      unfold verifyCdnSignedUrl
      simp only [hget_exp, hget_sig]
      rw [if_neg (by
        intro hor
        cases hor with
        | inl hl => exact natToString_ne_empty _ (he ▸ hl)
        | inr hr => exact marker_append_ne_empty _ (hsig ▸ hr))]
      rw [he]
      simp only [jsParseInt_natToString]
      rw [if_neg (by omega : ¬ ((t : Int) > ((now + ttl * 1000 : Nat) : Int)))]
      rw [← he, hdel, ← hpayload, hsig]
      rw [afterLastEq_marker (toHex (hmac apiSecret payload)) (toHexList_ne_eq _)]
      have hdecode : hexDecode (toHex (hmac apiSecret payload)) = hmac apiSecret payload :=
        hexDecodeList_toHexList _ (hbytes _ _)
      rw [hdecode]
      rw [if_neg (by simp)]
      simp

/-- Witness for C6 at a concrete minted URL. -/
theorem C6_sign_verify_roundtrip_witness :
    verifyCdnSignedUrl stubHmac
        ⟨"http://h/f/k", [("expires", "60000"), ("signature", "hmac-sha256=ab")]⟩ "sk" 1000
      = true :=
  C6_sign_verify_roundtrip stubHmac "http://h" "sk" "k" 60 [] 0 1000 "http://h/f/k"
    ⟨"http://h/f/k", [("expires", "60000"), ("signature", "hmac-sha256=ab")]⟩
    (fun _ _ => rfl) rfl rfl rfl (by decide)
